import Mathlib

/-!
Verification of the bot-api-mcp server (src/index.ts).

The TypeScript source is shallowly embedded: the zod validators become
boolean predicates on strings, the gateway `makeApiRequest` becomes a pure
function over an explicit environment (the optional BOT_API_KEY value) and
an explicit model of the upstream fetch outcome, the tool handlers become
functions producing the response envelope together with a record of the
network activity, and `JSON.stringify(·, null, 2)` becomes a verified
pretty printer over a JSON value type (numbers modelled as integers).
-/

set_option maxHeartbeats 1000000

namespace BotApi

/-! ## Constants from src/index.ts -/

def REFERENCE_RATE_BASE_URL : String := "https://gateway.api.bot.or.th/Stat-ReferenceRate/v2"

def EXCHANGE_RATE_BASE_URL : String := "https://gateway.api.bot.or.th/Stat-ExchangeRate/v2"

def SUPPORTED_CURRENCIES : List String :=
  ["USD", "GBP", "EUR", "JPY", "CNY", "HKD", "SGD", "MYR", "TWD", "KRW",
   "IDR", "INR", "AUD", "NZD", "CHF", "DKK", "NOK", "SEK", "AED", "PKR"]

def REQUEST_TIMEOUT_MS : Nat := 30000

/-! ## Period and currency validators (the zod schemas)

`z.string().regex(/^\d{4}-\d{2}-\d{2}$/)` accepts exactly the strings whose
character sequence is four digits, a dash, two digits, a dash, two digits;
the other three grammars are analogous.  The schemas are embedded as
decidable boolean predicates on the string's character list. -/

def dailyPeriodSchema (s : String) : Bool :=
  match s.data with
  | [y1, y2, y3, y4, '-', m1, m2, '-', d1, d2] =>
      y1.isDigit && y2.isDigit && y3.isDigit && y4.isDigit &&
      m1.isDigit && m2.isDigit && d1.isDigit && d2.isDigit
  | _ => false

def monthlyPeriodSchema (s : String) : Bool :=
  match s.data with
  | [y1, y2, y3, y4, '-', m1, m2] =>
      y1.isDigit && y2.isDigit && y3.isDigit && y4.isDigit &&
      m1.isDigit && m2.isDigit
  | _ => false

def quarterlyPeriodSchema (s : String) : Bool :=
  match s.data with
  | [y1, y2, y3, y4, '-', 'Q', q] =>
      y1.isDigit && y2.isDigit && y3.isDigit && y4.isDigit &&
      (q == '1' || q == '2' || q == '3' || q == '4')
  | _ => false

def annualPeriodSchema (s : String) : Bool :=
  match s.data with
  | [y1, y2, y3, y4] => y1.isDigit && y2.isDigit && y3.isDigit && y4.isDigit
  | _ => false

/-- The schema `z.enum(SUPPORTED_CURRENCIES).optional()`: absence passes, a present
string passes exactly when it is one of the twenty codes. -/
def currencySchema (c : Option String) : Bool :=
  match c with
  | none => true
  | some s => SUPPORTED_CURRENCIES.contains s

/-! ## JSON values

JSON values as produced by `response.json()` and consumed by
`JSON.stringify`.  Numbers are modelled as integers (the upstream payloads
of interest carry decimal strings and integers; the float-formatting part
of `JSON.stringify` is out of scope of the embedding).  Arrays and objects
are modelled with mutually inductive list types to obtain a usable mutual
induction principle. -/

mutual

inductive Json where
  | null : Json
  | bool : Bool → Json
  | num : Int → Json
  | str : String → Json
  | arr : JsonArr → Json
  | obj : JsonObj → Json

inductive JsonArr where
  | nil : JsonArr
  | cons : Json → JsonArr → JsonArr

inductive JsonObj where
  | nil : JsonObj
  | cons : String → Json → JsonObj → JsonObj

end

/-! ## `JSON.stringify(data, null, 2)` -/

/-- Decimal digit character. -/
def digitCh (n : Nat) : Char :=
  match n with
  | 0 => '0' | 1 => '1' | 2 => '2' | 3 => '3' | 4 => '4'
  | 5 => '5' | 6 => '6' | 7 => '7' | 8 => '8' | _ => '9'

/-- Lowercase hexadecimal digit character, as emitted by the JS unicode
escape in `JSON.stringify`. -/
def hexCh (n : Nat) : Char :=
  match n with
  | 0 => '0' | 1 => '1' | 2 => '2' | 3 => '3' | 4 => '4'
  | 5 => '5' | 6 => '6' | 7 => '7' | 8 => '8' | 9 => '9'
  | 10 => 'a' | 11 => 'b' | 12 => 'c' | 13 => 'd' | 14 => 'e' | _ => 'f'

/-- Decimal digits of a natural number, most significant first. -/
def natChars (n : Nat) : List Char :=
  if _h : n < 10 then [digitCh n]
  else natChars (n / 10) ++ [digitCh (n % 10)]
  decreasing_by exact Nat.div_lt_self (by omega) (by omega)

/-- Decimal representation of an integer (JS `Number::toString` on an
integral value). -/
def intChars (n : Int) : List Char :=
  if n < 0 then '-' :: natChars n.natAbs else natChars n.toNat

/-- JS `QuoteJSONString` escaping of one character. -/
def escapeChar (c : Char) : List Char :=
  if c = '"' then ['\\', '"']
  else if c = '\\' then ['\\', '\\']
  else if c = '\x08' then ['\\', 'b']
  else if c = '\t' then ['\\', 't']
  else if c = '\n' then ['\\', 'n']
  else if c = '\x0c' then ['\\', 'f']
  else if c = '\r' then ['\\', 'r']
  else if c.toNat < 32 then ['\\', 'u', '0', '0', hexCh (c.toNat / 16), hexCh (c.toNat % 16)]
  else [c]

def escList : List Char → List Char
  | [] => []
  | c :: cs => escapeChar c ++ escList cs

/-- A quoted, escaped JSON string literal. -/
def quoteChars (cs : List Char) : List Char :=
  '"' :: escList cs ++ ['"']

/-- Indentation at nesting depth `d` for a gap of two spaces. -/
def indentChars (d : Nat) : List Char :=
  List.replicate (2 * d) ' '

mutual

/-- Rendering of `JSON.stringify(v, null, 2)` at nesting depth `d`, as a character
list. -/
def printV : Json → Nat → List Char
  | .null, _ => ['n', 'u', 'l', 'l']
  | .bool true, _ => ['t', 'r', 'u', 'e']
  | .bool false, _ => ['f', 'a', 'l', 's', 'e']
  | .num n, _ => intChars n
  | .str s, _ => quoteChars s.data
  | .arr .nil, _ => ['[', ']']
  | .arr (.cons v tl), d =>
      '[' :: '\n' :: (indentChars (d + 1) ++ printItems (.cons v tl) (d + 1) ++
        '\n' :: (indentChars d ++ [']']))
  | .obj .nil, _ => ['{', '}']
  | .obj (.cons k v tl), d =>
      '{' :: '\n' :: (indentChars (d + 1) ++ printMembers (.cons k v tl) (d + 1) ++
        '\n' :: (indentChars d ++ ['}']))

/-- The comma-newline separated items of a non-empty array, each at depth
`d`. -/
def printItems : JsonArr → Nat → List Char
  | .nil, _ => []
  | .cons v .nil, d => printV v d
  | .cons v (.cons w tl), d =>
      printV v d ++ ',' :: '\n' :: (indentChars d ++ printItems (.cons w tl) d)

/-- The comma-newline separated `"key": value` members of a non-empty
object, each at depth `d`. -/
def printMembers : JsonObj → Nat → List Char
  | .nil, _ => []
  | .cons k v .nil, d => quoteChars k.data ++ ':' :: ' ' :: printV v d
  | .cons k v (.cons k2 w tl), d =>
      quoteChars k.data ++ ':' :: ' ' :: printV v d ++
        ',' :: '\n' :: (indentChars d ++ printMembers (.cons k2 w tl) d)

end

/-- The function `formatResponse` from src/index.ts: `JSON.stringify(data, null, 2)`. -/
def formatResponse (data : Json) : String :=
  String.mk (printV data 0)

/-! ## A JSON parser (`JSON.parse` for the fragment produced above)

Used both to model `response.json()` on the upstream body and to state the
round-trip property of the success envelope. -/

def isWsChar (c : Char) : Bool :=
  c == ' ' || c == '\n' || c == '\t' || c == '\r'

/-- Drop leading JSON whitespace. -/
def skipWs : List Char → List Char
  | [] => []
  | c :: cs => if isWsChar c then skipWs cs else c :: cs

/-- Value of a hexadecimal digit character. -/
def hexVal (c : Char) : Option Nat :=
  if c.isDigit then some (c.toNat - 48)
  else if 'a' ≤ c ∧ c ≤ 'f' then some (c.toNat - 87)
  else if 'A' ≤ c ∧ c ≤ 'F' then some (c.toNat - 55)
  else none

/-- Single-character JSON escapes. -/
def unescape (e : Char) : Option Char :=
  if e = '"' then some '"'
  else if e = '\\' then some '\\'
  else if e = '/' then some '/'
  else if e = 'b' then some '\x08'
  else if e = 'f' then some '\x0c'
  else if e = 'n' then some '\n'
  else if e = 'r' then some '\r'
  else if e = 't' then some '\t'
  else none

/-- Parse the body of a string literal after the opening quote; returns the
decoded characters and the input after the closing quote. -/
def parseStrBody : List Char → Option (List Char × List Char)
  | [] => none
  | c :: rest =>
    if c = '"' then some ([], rest)
    else if c = '\\' then
      match rest with
      | [] => none
      | e :: rest1 =>
        if e = 'u' then
          match rest1 with
          | a :: b :: c2 :: d :: rest2 =>
            match hexVal a, hexVal b, hexVal c2, hexVal d with
            | some ha, some hb, some hc, some hd =>
              match parseStrBody rest2 with
              | some (cs, r) =>
                  some (Char.ofNat (4096 * ha + 256 * hb + 16 * hc + hd) :: cs, r)
              | none => none
            | _, _, _, _ => none
          | _ => none
        else
          match unescape e with
          | some u =>
            match parseStrBody rest1 with
            | some (cs, r) => some (u :: cs, r)
            | none => none
          | none => none
    else
      match parseStrBody rest with
      | some (cs, r) => some (c :: cs, r)
      | none => none

/-- Longest digit run at the head of the input. -/
def takeDigits : List Char → List Char × List Char
  | [] => ([], [])
  | c :: cs =>
    if c.isDigit then
      let (ds, r) := takeDigits cs
      (c :: ds, r)
    else ([], c :: cs)

def digitVal (c : Char) : Nat := c.toNat - 48

/-- Numeric value of a digit run. -/
def digitsVal (ds : List Char) : Nat :=
  ds.foldl (fun a c => 10 * a + digitVal c) 0

mutual

/-- Parse one JSON value (fuel-indexed); returns the value and the
unconsumed input. -/
def parseV : Nat → List Char → Option (Json × List Char)
  | 0, _ => none
  | fuel + 1, s =>
    match skipWs s with
    | [] => none
    | c :: rest =>
      if c = 'n' then
        match rest with
        | 'u' :: 'l' :: 'l' :: r => some (.null, r)
        | _ => none
      else if c = 't' then
        match rest with
        | 'r' :: 'u' :: 'e' :: r => some (.bool true, r)
        | _ => none
      else if c = 'f' then
        match rest with
        | 'a' :: 'l' :: 's' :: 'e' :: r => some (.bool false, r)
        | _ => none
      else if c = '"' then
        match parseStrBody rest with
        | some (cs, r) => some (.str (String.mk cs), r)
        | none => none
      else if c = '[' then
        match skipWs rest with
        | [] => none
        | c1 :: r1 =>
          if c1 = ']' then some (.arr .nil, r1)
          else
            match parseItems fuel (c1 :: r1) with
            | some (a, r) => some (.arr a, r)
            | none => none
      else if c = '{' then
        match skipWs rest with
        | [] => none
        | c1 :: r1 =>
          if c1 = '}' then some (.obj .nil, r1)
          else
            match parseMembers fuel (c1 :: r1) with
            | some (o, r) => some (.obj o, r)
            | none => none
      else if c = '-' then
        match takeDigits rest with
        | ([], _) => none
        | (ds, r) => some (.num (-(digitsVal ds : Int)), r)
      else if c.isDigit then
        match takeDigits (c :: rest) with
        | (ds, r) => some (.num ((digitsVal ds : Int)), r)
      else none

/-- Parse the items of a non-empty array including the closing bracket. -/
def parseItems : Nat → List Char → Option (JsonArr × List Char)
  | 0, _ => none
  | fuel + 1, s =>
    match parseV fuel s with
    | none => none
    | some (v, r) =>
      match skipWs r with
      | [] => none
      | c :: r2 =>
        if c = ',' then
          match parseItems fuel r2 with
          | some (tl, r3) => some (.cons v tl, r3)
          | none => none
        else if c = ']' then some (.cons v .nil, r2)
        else none

/-- Parse the members of a non-empty object including the closing brace. -/
def parseMembers : Nat → List Char → Option (JsonObj × List Char)
  | 0, _ => none
  | fuel + 1, s =>
    match skipWs s with
    | [] => none
    | c :: rest =>
      if c = '"' then
        match parseStrBody rest with
        | none => none
        | some (k, r) =>
          match skipWs r with
          | [] => none
          | c2 :: r2 =>
            if c2 = ':' then
              match parseV fuel r2 with
              | none => none
              | some (v, r3) =>
                match skipWs r3 with
                | [] => none
                | c3 :: r4 =>
                  if c3 = ',' then
                    match parseMembers fuel r4 with
                    | some (tl, r5) => some (.cons (String.mk k) v tl, r5)
                    | none => none
                  else if c3 = '}' then some (.cons (String.mk k) v .nil, r4)
                  else none
            else none
      else none

end

/-- Model of `JSON.parse`: a full parse of the input as one JSON value (only
whitespace may follow). -/
def Json.parse (s : String) : Option Json :=
  match parseV (s.data.length + 1) s.data with
  | some (v, rest) => if (skipWs rest).isEmpty then some v else none
  | none => none

deriving instance DecidableEq for Json

/-! ## The upstream request gateway (`makeApiRequest`)

The effectful parts of `makeApiRequest` are made explicit:

* the credential read `process.env.BOT_API_KEY` becomes an
  `Option String` argument, read on every call;
* the behaviour of the in-flight `fetch` becomes an `Upstream` argument:
  it either never settles, or settles after `t` milliseconds with an HTTP
  status and a raw body, or rejects after `t` milliseconds with a
  transport fault;
* the outcome records the issued requests, the elapsed time at which the
  call settled, whether the `AbortController` fired, and whether a timer
  is still pending after the `finally` block. -/

inductive Upstream where
  | never : Upstream
  | completesAt : Nat → Nat → String → Upstream
  | failsAt : Nat → String → Upstream

/-- One HTTP request as issued by the gateway: method, URL before the
query string, appended query parameters in order, and the two headers. -/
structure RequestSpec where
  method : String
  url : String
  query : List (String × String)
  authorization : String
  accept : String
deriving DecidableEq

/-- Result of one gateway call. -/
structure GatewayOutcome where
  result : Except String Json
  calls : List RequestSpec
  settledAt : Nat
  aborted : Bool
  pendingTimer : Bool

/-- Behaviour of `url.searchParams.append(key, value)` under `if (value)`: entries with
an empty (falsy) value are skipped. -/
def appendParams (params : List (String × String)) : List (String × String) :=
  params.filter (fun p => p.2 ≠ "")

/-- The check `response.ok`: status in the inclusive range 200–299. -/
def statusOk (status : Nat) : Bool :=
  200 ≤ status && status ≤ 299

/-- Message of the JSON syntax error raised by `response.json()` on a
malformed body. -/
def PARSE_ERROR_MSG : String := "Unexpected token in JSON"

def CONFIG_ERROR_MSG : String :=
  "BOT_API_KEY environment variable is not set. Please set it with your Bank of Thailand API key."

def TIMEOUT_ERROR_MSG : String := "API request timed out"

def statusErrorMsg (status : Nat) : String :=
  "API request failed with status " ++ toString status

/-- The gateway `makeApiRequest(baseUrl, endpoint, params)` from src/index.ts. -/
def makeApiRequest (env : Option String) (baseUrl endpoint : String)
    (params : List (String × String)) (up : Upstream) : GatewayOutcome :=
  match env with
  | none =>
      { result := .error CONFIG_ERROR_MSG, calls := [], settledAt := 0,
        aborted := false, pendingTimer := false }
  | some apiKey =>
      let req : RequestSpec :=
        { method := "GET", url := baseUrl ++ endpoint, query := appendParams params,
          authorization := apiKey, accept := "application/json" }
      match up with
      | .never =>
          { result := .error TIMEOUT_ERROR_MSG, calls := [req],
            settledAt := REQUEST_TIMEOUT_MS, aborted := true, pendingTimer := false }
      | .failsAt t msg =>
          if REQUEST_TIMEOUT_MS ≤ t then
            { result := .error TIMEOUT_ERROR_MSG, calls := [req],
              settledAt := REQUEST_TIMEOUT_MS, aborted := true, pendingTimer := false }
          else
            { result := .error msg, calls := [req], settledAt := t,
              aborted := false, pendingTimer := false }
      | .completesAt t status body =>
          if REQUEST_TIMEOUT_MS ≤ t then
            { result := .error TIMEOUT_ERROR_MSG, calls := [req],
              settledAt := REQUEST_TIMEOUT_MS, aborted := true, pendingTimer := false }
          else if ¬statusOk status then
            { result := .error (statusErrorMsg status), calls := [req],
              settledAt := t, aborted := false, pendingTimer := false }
          else
            match Json.parse body with
            | some data =>
                { result := .ok data, calls := [req], settledAt := t,
                  aborted := false, pendingTimer := false }
            | none =>
                { result := .error PARSE_ERROR_MSG, calls := [req], settledAt := t,
                  aborted := false, pendingTimer := false }

/-! ## Tool handlers and the response envelope -/

structure Content where
  type : String
  text : String
deriving DecidableEq

/-- The MCP tool response: `isError` is `none` when the handler returns no
such field (success) and `some true` on the error path. -/
structure ToolResponse where
  content : List Content
  isError : Option Bool
deriving DecidableEq

/-- The shared shape of all eight tool handlers: one gateway call wrapped
in try/catch, producing the envelope. -/
def handleTool (env : Option String) (baseUrl endpoint : String)
    (params : List (String × String)) (up : Upstream) : ToolResponse × GatewayOutcome :=
  let g := makeApiRequest env baseUrl endpoint params up
  match g.result with
  | .ok data => ({ content := [⟨"text", formatResponse data⟩], isError := none }, g)
  | .error msg => ({ content := [⟨"text", "Error: " ++ msg⟩], isError := some true }, g)

def get_daily_interbank_rate (env : Option String) (start_period end_period : String)
    (up : Upstream) : ToolResponse × GatewayOutcome :=
  handleTool env REFERENCE_RATE_BASE_URL "/DAILY_REF_RATE/"
    [("start_period", start_period), ("end_period", end_period)] up

def get_monthly_interbank_rate (env : Option String) (start_period end_period : String)
    (up : Upstream) : ToolResponse × GatewayOutcome :=
  handleTool env REFERENCE_RATE_BASE_URL "/MONTHLY_REF_RATE/"
    [("start_period", start_period), ("end_period", end_period)] up

def get_quarterly_interbank_rate (env : Option String) (start_period end_period : String)
    (up : Upstream) : ToolResponse × GatewayOutcome :=
  handleTool env REFERENCE_RATE_BASE_URL "/QUARTERLY_REF_RATE/"
    [("start_period", start_period), ("end_period", end_period)] up

def get_annual_interbank_rate (env : Option String) (start_period end_period : String)
    (up : Upstream) : ToolResponse × GatewayOutcome :=
  handleTool env REFERENCE_RATE_BASE_URL "/ANNUAL_REF_RATE/"
    [("start_period", start_period), ("end_period", end_period)] up

def get_daily_exchange_rate (env : Option String) (start_period end_period : String)
    (currency : Option String) (up : Upstream) : ToolResponse × GatewayOutcome :=
  handleTool env EXCHANGE_RATE_BASE_URL "/DAILY_AVG_EXG_RATE/"
    [("start_period", start_period), ("end_period", end_period),
     ("currency", currency.getD "")] up

def get_monthly_exchange_rate (env : Option String) (start_period end_period : String)
    (currency : Option String) (up : Upstream) : ToolResponse × GatewayOutcome :=
  handleTool env EXCHANGE_RATE_BASE_URL "/MONTHLY_AVG_EXG_RATE/"
    [("start_period", start_period), ("end_period", end_period),
     ("currency", currency.getD "")] up

def get_quarterly_exchange_rate (env : Option String) (start_period end_period : String)
    (currency : Option String) (up : Upstream) : ToolResponse × GatewayOutcome :=
  handleTool env EXCHANGE_RATE_BASE_URL "/QUARTERLY_AVG_EXG_RATE/"
    [("start_period", start_period), ("end_period", end_period),
     ("currency", currency.getD "")] up

def get_annual_exchange_rate (env : Option String) (start_period end_period : String)
    (currency : Option String) (up : Upstream) : ToolResponse × GatewayOutcome :=
  handleTool env EXCHANGE_RATE_BASE_URL "/ANNUAL_AVG_EXG_RATE/"
    [("start_period", start_period), ("end_period", end_period),
     ("currency", currency.getD "")] up

/-! ## Resources -/

def currencyDescriptions : List (String × String) :=
  [("USD", "United States Dollar"), ("GBP", "British Pound Sterling"),
   ("EUR", "Euro"), ("JPY", "Japanese Yen"), ("CNY", "Chinese Yuan Renminbi"),
   ("HKD", "Hong Kong Dollar"), ("SGD", "Singapore Dollar"),
   ("MYR", "Malaysian Ringgit"), ("TWD", "Taiwan Dollar"),
   ("KRW", "South Korean Won"), ("IDR", "Indonesian Rupiah"),
   ("INR", "Indian Rupee"), ("AUD", "Australian Dollar"),
   ("NZD", "New Zealand Dollar"), ("CHF", "Swiss Franc"),
   ("DKK", "Danish Krone"), ("NOK", "Norwegian Krone"),
   ("SEK", "Swedish Krona"), ("AED", "UAE Dirham"), ("PKR", "Pakistani Rupee")]

/-- The function `getCurrencyDescription` from src/index.ts: static lookup, falling back
to the code itself. -/
def getCurrencyDescription (code : String) : String :=
  match currencyDescriptions.lookup code with
  | some d => d
  | none => code

/-- The `currencyInfo` array built by the `supported-currencies` resource
handler: one `{code, description}` entry per supported currency, in
declared order. -/
def currencyInfo : List (String × String) :=
  SUPPORTED_CURRENCIES.map (fun code => (code, getCurrencyDescription code))

def currencyInfoJson : List (String × String) → JsonArr
  | [] => .nil
  | (c, d) :: tl =>
      .cons (.obj (.cons "code" (.str c) (.cons "description" (.str d) .nil)))
        (currencyInfoJson tl)

structure ResourceContent where
  uri : String
  mimeType : String
  text : String
deriving DecidableEq

structure ResourceResult where
  contents : List ResourceContent
deriving DecidableEq

/-- The `supported-currencies` resource handler (read of
`bot://currencies`). -/
def supportedCurrenciesResource : ResourceResult :=
  { contents := [{ uri := "bot://currencies", mimeType := "application/json",
                   text := String.mk (printV (.arr (currencyInfoJson currencyInfo)) 0) }] }

/-! ## Auxiliary definitions for the statements and proofs -/

/-- Does `pat` occur at the head of `s`? -/
def startsWithSeq : List Char → List Char → Bool
  | _, [] => true
  | [], _ :: _ => false
  | a :: as, b :: bs => a == b && startsWithSeq as bs

/-- Does `pat` occur contiguously anywhere in `s`? -/
def containsSeq : List Char → List Char → Bool
  | [], pat => pat.isEmpty
  | c :: cs, pat => startsWithSeq (c :: cs) pat || containsSeq cs pat

/-- Substring test on strings. -/
def strContains (s pat : String) : Bool :=
  containsSeq s.data pat.data

/-- The period grammar `^\d{4}-\d{2}-\d{2}$`, stated as a predicate. -/
def MatchesDaily (s : String) : Prop :=
  ∃ y1 y2 y3 y4 m1 m2 d1 d2 : Char,
    s.data = [y1, y2, y3, y4, '-', m1, m2, '-', d1, d2] ∧
    y1.isDigit = true ∧ y2.isDigit = true ∧ y3.isDigit = true ∧ y4.isDigit = true ∧
    m1.isDigit = true ∧ m2.isDigit = true ∧ d1.isDigit = true ∧ d2.isDigit = true

/-- The period grammar `^\d{4}-\d{2}$`, stated as a predicate. -/
def MatchesMonthly (s : String) : Prop :=
  ∃ y1 y2 y3 y4 m1 m2 : Char,
    s.data = [y1, y2, y3, y4, '-', m1, m2] ∧
    y1.isDigit = true ∧ y2.isDigit = true ∧ y3.isDigit = true ∧ y4.isDigit = true ∧
    m1.isDigit = true ∧ m2.isDigit = true

/-- The period grammar `^\d{4}-Q[1-4]$`, stated as a predicate. -/
def MatchesQuarterly (s : String) : Prop :=
  ∃ y1 y2 y3 y4 q : Char,
    s.data = [y1, y2, y3, y4, '-', 'Q', q] ∧
    y1.isDigit = true ∧ y2.isDigit = true ∧ y3.isDigit = true ∧ y4.isDigit = true ∧
    (q = '1' ∨ q = '2' ∨ q = '3' ∨ q = '4')

/-- The period grammar `^\d{4}$`, stated as a predicate. -/
def MatchesAnnual (s : String) : Prop :=
  ∃ y1 y2 y3 y4 : Char,
    s.data = [y1, y2, y3, y4] ∧
    y1.isDigit = true ∧ y2.isDigit = true ∧ y3.isDigit = true ∧ y4.isDigit = true

/-- An upstream call that does not settle before the deadline `dl`. -/
def NoSettleBefore (up : Upstream) (dl : Nat) : Prop :=
  match up with
  | .never => True
  | .completesAt t _ _ => dl ≤ t
  | .failsAt t _ => dl ≤ t

/-- Input whose first character, if any, cannot extend a digit run. -/
def headNotDigit : List Char → Prop
  | [] => True
  | c :: _ => c.isDigit = false

/-- Input that may legally follow a printed JSON value: in the output of
the pretty printer a value is followed by nothing, a comma, or a
newline. -/
def delimOk : List Char → Prop
  | [] => True
  | c :: _ => c = ',' ∨ c = '\n'

mutual

/-- Fuel needed by `parseV` on the printed form of `v`. -/
def sizeV : Json → Nat
  | .null => 1
  | .bool _ => 1
  | .num _ => 1
  | .str _ => 1
  | .arr a => 1 + sizeA a
  | .obj o => 1 + sizeO o

def sizeA : JsonArr → Nat
  | .nil => 0
  | .cons v tl => 1 + sizeV v + sizeA tl

def sizeO : JsonObj → Nat
  | .nil => 0
  | .cons _ v tl => 1 + sizeV v + sizeO tl

end

/-! ## Validator lemmas -/

theorem dailyPeriodSchema_iff (s : String) :
    dailyPeriodSchema s = true ↔ MatchesDaily s := by
  unfold dailyPeriodSchema MatchesDaily
  constructor
  · intro h
    split at h
    next y1 y2 y3 y4 m1 m2 d1 d2 hdata =>
      simp only [Bool.and_eq_true] at h
      exact ⟨y1, y2, y3, y4, m1, m2, d1, d2, hdata,
        h.1.1.1.1.1.1.1, h.1.1.1.1.1.1.2, h.1.1.1.1.1.2, h.1.1.1.1.2,
        h.1.1.1.2, h.1.1.2, h.1.2, h.2⟩
    next => exact absurd h (by simp)
  · rintro ⟨y1, y2, y3, y4, m1, m2, d1, d2, hdata, h1, h2, h3, h4, h5, h6, h7, h8⟩
    rw [hdata]
    simp [h1, h2, h3, h4, h5, h6, h7, h8]

theorem monthlyPeriodSchema_iff (s : String) :
    monthlyPeriodSchema s = true ↔ MatchesMonthly s := by
  unfold monthlyPeriodSchema MatchesMonthly
  constructor
  · intro h
    split at h
    next y1 y2 y3 y4 m1 m2 hdata =>
      simp only [Bool.and_eq_true] at h
      exact ⟨y1, y2, y3, y4, m1, m2, hdata,
        h.1.1.1.1.1, h.1.1.1.1.2, h.1.1.1.2, h.1.1.2, h.1.2, h.2⟩
    next => exact absurd h (by simp)
  · rintro ⟨y1, y2, y3, y4, m1, m2, hdata, h1, h2, h3, h4, h5, h6⟩
    rw [hdata]
    simp [h1, h2, h3, h4, h5, h6]

theorem quarterlyPeriodSchema_iff (s : String) :
    quarterlyPeriodSchema s = true ↔ MatchesQuarterly s := by
  unfold quarterlyPeriodSchema MatchesQuarterly
  constructor
  · intro h
    split at h
    next y1 y2 y3 y4 q hdata =>
      simp only [Bool.and_eq_true, Bool.or_eq_true, beq_iff_eq] at h
      exact ⟨y1, y2, y3, y4, q, hdata,
        h.1.1.1.1, h.1.1.1.2, h.1.1.2, h.1.2, by tauto⟩
    next => exact absurd h (by simp)
  · rintro ⟨y1, y2, y3, y4, q, hdata, h1, h2, h3, h4, hq⟩
    rw [hdata]
    rcases hq with rfl | rfl | rfl | rfl <;> simp [h1, h2, h3, h4]

theorem annualPeriodSchema_iff (s : String) :
    annualPeriodSchema s = true ↔ MatchesAnnual s := by
  unfold annualPeriodSchema MatchesAnnual
  constructor
  · intro h
    split at h
    next y1 y2 y3 y4 hdata =>
      simp only [Bool.and_eq_true] at h
      exact ⟨y1, y2, y3, y4, hdata, h.1.1.1, h.1.1.2, h.1.2, h.2⟩
    next => exact absurd h (by simp)
  · rintro ⟨y1, y2, y3, y4, hdata, h1, h2, h3, h4⟩
    rw [hdata]
    simp [h1, h2, h3, h4]

/-- Claim C6: each period validator accepts exactly the strings matched by
its anchored grammar (`^\d{4}-\d{2}-\d{2}$`, `^\d{4}-\d{2}$`,
`^\d{4}-Q[1-4]$`, `^\d{4}$`); validation is purely syntactic, so the
calendar-invalid string "2024-13-99" passes the daily grammar, and no
normalization happens: the padded string " 2024-01-01" is rejected. -/
theorem claim_C6_period_validators :
    (∀ s : String, dailyPeriodSchema s = true ↔ MatchesDaily s) ∧
    (∀ s : String, monthlyPeriodSchema s = true ↔ MatchesMonthly s) ∧
    (∀ s : String, quarterlyPeriodSchema s = true ↔ MatchesQuarterly s) ∧
    (∀ s : String, annualPeriodSchema s = true ↔ MatchesAnnual s) ∧
    dailyPeriodSchema "2024-13-99" = true ∧
    dailyPeriodSchema " 2024-01-01" = false ∧
    quarterlyPeriodSchema "2024-q1" = false :=
  ⟨dailyPeriodSchema_iff, monthlyPeriodSchema_iff, quarterlyPeriodSchema_iff,
    annualPeriodSchema_iff, by decide, by decide, by decide⟩

/-- Claim C7: the currency validator accepts a present string exactly when
it is a case-sensitive member of the fixed currency set, always accepts
absence, and the set has exactly 20 distinct codes (so e.g. the
lowercased "usd" is rejected). -/
theorem claim_C7_currency_validator :
    (∀ s : String, currencySchema (some s) = true ↔ s ∈ SUPPORTED_CURRENCIES) ∧
    currencySchema none = true ∧
    SUPPORTED_CURRENCIES.length = 20 ∧
    SUPPORTED_CURRENCIES.Nodup ∧
    currencySchema (some "usd") = false := by
  refine ⟨?_, rfl, by decide, by decide, by decide⟩
  intro s
  simp [currencySchema, SUPPORTED_CURRENCIES]

/-! ## Gateway lemmas -/

/-- The request issued by the gateway when the credential is present. -/
def gatewayRequest (key baseUrl endpoint : String)
    (params : List (String × String)) : RequestSpec :=
  { method := "GET", url := baseUrl ++ endpoint, query := appendParams params,
    authorization := key, accept := "application/json" }

theorem makeApiRequest_some_calls (key baseUrl endpoint : String)
    (params : List (String × String)) (up : Upstream) :
    (makeApiRequest (some key) baseUrl endpoint params up).calls =
      [gatewayRequest key baseUrl endpoint params] := by
  unfold makeApiRequest gatewayRequest
  cases up with
  | never => rfl
  | failsAt t msg => by_cases h : REQUEST_TIMEOUT_MS ≤ t <;> simp [h]
  | completesAt t status body =>
      by_cases h : REQUEST_TIMEOUT_MS ≤ t
      · simp [h]
      · by_cases h2 : statusOk status
        · simp [h, h2]
          cases Json.parse body <;> simp
        · simp [h, h2]

theorem makeApiRequest_no_pending_timer (env : Option String)
    (baseUrl endpoint : String) (params : List (String × String)) (up : Upstream) :
    (makeApiRequest env baseUrl endpoint params up).pendingTimer = false := by
  unfold makeApiRequest
  cases env with
  | none => rfl
  | some key =>
      cases up with
      | never => rfl
      | failsAt t msg => by_cases h : REQUEST_TIMEOUT_MS ≤ t <;> simp [h]
      | completesAt t status body =>
          by_cases h : REQUEST_TIMEOUT_MS ≤ t
          · simp [h]
          · by_cases h2 : statusOk status
            · simp [h, h2]
              cases Json.parse body <;> simp
            · simp [h, h2]

/-- The handler returns the gateway outcome it observed unchanged. -/
theorem handleTool_gateway (env : Option String) (baseUrl endpoint : String)
    (params : List (String × String)) (up : Upstream) :
    (handleTool env baseUrl endpoint params up).2 =
      makeApiRequest env baseUrl endpoint params up := by
  unfold handleTool
  rcases h : (makeApiRequest env baseUrl endpoint params up).result <;> simp [h]

/-- Claim C10: every handler returns an envelope whose content is exactly
one element of type "text"; on the error path the text is "Error: "
followed by the failure message and `isError` is set to true, and on the
success path no `isError` field is set. -/
theorem claim_C10_envelope_shape (env : Option String) (baseUrl endpoint : String)
    (params : List (String × String)) (up : Upstream) :
    ∃ c : Content,
      (handleTool env baseUrl endpoint params up).1.content = [c] ∧
      c.type = "text" ∧
      ((∃ data, (makeApiRequest env baseUrl endpoint params up).result = .ok data ∧
          (handleTool env baseUrl endpoint params up).1.isError = none ∧
          c.text = formatResponse data) ∨
       (∃ msg, (makeApiRequest env baseUrl endpoint params up).result = .error msg ∧
          (handleTool env baseUrl endpoint params up).1.isError = some true ∧
          c.text = "Error: " ++ msg)) := by
  unfold handleTool
  cases h : (makeApiRequest env baseUrl endpoint params up).result with
  | ok data =>
      exact ⟨⟨"text", formatResponse data⟩, by simp [h], rfl,
        .inl ⟨data, rfl, by simp [h], rfl⟩⟩
  | error msg =>
      exact ⟨⟨"text", "Error: " ++ msg⟩, by simp [h], rfl,
        .inr ⟨msg, rfl, by simp [h], rfl⟩⟩

/-- Claim C1: with the credential absent every tool invocation produces an
error envelope whose text contains "BOT_API_KEY environment variable is
not set" with `isError` true, and no network call is issued; the
credential is an argument of every call (never cached), so a credential
present on a later call makes that call issue the request authorized with
it. -/
theorem claim_C1_missing_credential (baseUrl endpoint : String)
    (params : List (String × String)) (up : Upstream) :
    ((handleTool none baseUrl endpoint params up).2.calls = [] ∧
     (handleTool none baseUrl endpoint params up).1.isError = some true ∧
     ∃ c, (handleTool none baseUrl endpoint params up).1.content = [c] ∧
       c.type = "text" ∧
       strContains c.text "BOT_API_KEY environment variable is not set" = true) ∧
    (∀ key up2, (handleTool (some key) baseUrl endpoint params up2).2.calls =
      [gatewayRequest key baseUrl endpoint params]) := by
  constructor
  · refine ⟨rfl, rfl, ⟨"text", "Error: " ++ CONFIG_ERROR_MSG⟩, rfl, rfl, ?_⟩
    decide
  · intro key up2
    rw [handleTool_gateway]
    exact makeApiRequest_some_calls key baseUrl endpoint params up2

/-- Claim C4: `get_daily_interbank_rate` on the sample periods issues
exactly one GET request to the reference-rate base URL concatenated with
"/DAILY_REF_RATE/", carrying exactly the two period query parameters. -/
theorem claim_C4_daily_interbank_request (key : String) (up : Upstream) :
    (get_daily_interbank_rate (some key) "2024-01-01" "2024-01-31" up).2.calls =
      [{ method := "GET",
         url := REFERENCE_RATE_BASE_URL ++ "/DAILY_REF_RATE/",
         query := [("start_period", "2024-01-01"), ("end_period", "2024-01-31")],
         authorization := key, accept := "application/json" }] := by
  unfold get_daily_interbank_rate
  rw [handleTool_gateway, makeApiRequest_some_calls]
  simp [gatewayRequest, appendParams]

/-- Claim C5: a parameter entry with empty value is dropped from the
query (and an absent one was never in the mapping), so the query contains
exactly the nonempty-valued entries; `get_daily_exchange_rate` without a
currency issues its one request with no "currency" parameter at all, and
with currency "USD" the request carries ("currency", "USD"). -/
theorem claim_C5_empty_params_omitted :
    (∀ (params : List (String × String)) (k v : String),
       (k, v) ∈ appendParams params ↔ ((k, v) ∈ params ∧ v ≠ "")) ∧
    (∀ key sp ep up,
       (get_daily_exchange_rate (some key) sp ep none up).2.calls =
         [gatewayRequest key EXCHANGE_RATE_BASE_URL "/DAILY_AVG_EXG_RATE/"
           [("start_period", sp), ("end_period", ep), ("currency", "")]] ∧
       (∀ v, ("currency", v) ∉
         (gatewayRequest key EXCHANGE_RATE_BASE_URL "/DAILY_AVG_EXG_RATE/"
           [("start_period", sp), ("end_period", ep), ("currency", "")]).query)) ∧
    (∀ key sp ep up,
       (get_daily_exchange_rate (some key) sp ep (some "USD") up).2.calls =
         [gatewayRequest key EXCHANGE_RATE_BASE_URL "/DAILY_AVG_EXG_RATE/"
           [("start_period", sp), ("end_period", ep), ("currency", "USD")]] ∧
       ("currency", "USD") ∈
         (gatewayRequest key EXCHANGE_RATE_BASE_URL "/DAILY_AVG_EXG_RATE/"
           [("start_period", sp), ("end_period", ep), ("currency", "USD")]).query) := by
  refine ⟨?_, ?_, ?_⟩
  · intro params k v
    simp [appendParams, List.mem_filter]
  · intro key sp ep up
    constructor
    · unfold get_daily_exchange_rate
      rw [handleTool_gateway]
      exact makeApiRequest_some_calls key EXCHANGE_RATE_BASE_URL "/DAILY_AVG_EXG_RATE/"
        [("start_period", sp), ("end_period", ep), ("currency", "")] up
    · intro v
      simp [gatewayRequest, appendParams, List.mem_filter]
  · intro key sp ep up
    constructor
    · unfold get_daily_exchange_rate
      rw [handleTool_gateway]
      exact makeApiRequest_some_calls key EXCHANGE_RATE_BASE_URL "/DAILY_AVG_EXG_RATE/"
        [("start_period", sp), ("end_period", ep), ("currency", "USD")] up
    · simp [gatewayRequest, appendParams, List.mem_filter]

/-- A witness for claim C5 at concrete inputs: a concrete nonempty-valued
entry survives `appendParams`. -/
theorem claim_C5_witness : ("a", "b") ∈ appendParams [("a", "b")] :=
  (claim_C5_empty_params_omitted.1 [("a", "b")] "a" "b").mpr ⟨by decide, by decide⟩

/-- The timeout message differs from every upstream-status message (the
latter is strictly longer). -/
theorem timeout_ne_statusErrorMsg (st : Nat) : TIMEOUT_ERROR_MSG ≠ statusErrorMsg st := by
  intro h
  have hlen := congrArg String.length h
  have h1 : TIMEOUT_ERROR_MSG.length = 21 := by decide
  have h2 : ("API request failed with status " : String).length = 31 := by decide
  rw [h1, statusErrorMsg, String.length_append, h2] at hlen
  omega

/-- Claim C2: whenever the upstream call does not settle before the
30,000 ms deadline, the gateway aborts it and fails with the
timeout-specific message, the failure is delivered at exactly the
deadline, the message is distinct from the configuration, upstream-status
and parse failure messages, and no deadline timer is left pending on any
exit path of any call. -/
theorem claim_C2_timeout (key baseUrl endpoint : String)
    (params : List (String × String)) (up : Upstream)
    (h : NoSettleBefore up REQUEST_TIMEOUT_MS) :
    (makeApiRequest (some key) baseUrl endpoint params up).result =
        .error TIMEOUT_ERROR_MSG ∧
    (makeApiRequest (some key) baseUrl endpoint params up).settledAt =
        REQUEST_TIMEOUT_MS ∧
    (makeApiRequest (some key) baseUrl endpoint params up).aborted = true ∧
    REQUEST_TIMEOUT_MS = 30000 ∧
    TIMEOUT_ERROR_MSG ≠ CONFIG_ERROR_MSG ∧
    (∀ st, TIMEOUT_ERROR_MSG ≠ statusErrorMsg st) ∧
    TIMEOUT_ERROR_MSG ≠ PARSE_ERROR_MSG ∧
    (∀ env2 up2, (makeApiRequest env2 baseUrl endpoint params up2).pendingTimer = false) := by
  refine ⟨?_, ?_, ?_, rfl, by decide, timeout_ne_statusErrorMsg, by decide,
    fun env2 up2 => makeApiRequest_no_pending_timer env2 baseUrl endpoint params up2⟩ <;>
  · cases up with
    | never => rfl
    | failsAt t msg =>
        have ht : REQUEST_TIMEOUT_MS ≤ t := h
        simp [makeApiRequest, ht]
    | completesAt t status body =>
        have ht : REQUEST_TIMEOUT_MS ≤ t := h
        simp [makeApiRequest, ht]

theorem claim_C2_timeout_witness :
    NoSettleBefore .never REQUEST_TIMEOUT_MS ∧
    (makeApiRequest (some "k") "b" "/e/" [] .never).result = .error TIMEOUT_ERROR_MSG ∧
    (makeApiRequest (some "k") "b" "/e/" [] .never).settledAt = REQUEST_TIMEOUT_MS :=
  ⟨trivial, (claim_C2_timeout "k" "b" "/e/" [] .never trivial).1,
    (claim_C2_timeout "k" "b" "/e/" [] .never trivial).2.1⟩

/-- Claim C3: on an upstream response with a non-2xx status (settling
before the deadline), the gateway fails with the message carrying only the
numeric status code; the entire outcome is independent of the response
body, and for status 404 the message contains "404". -/
theorem claim_C3_status_error (key baseUrl endpoint : String)
    (params : List (String × String)) (t status : Nat) (body : String)
    (ht : t < REQUEST_TIMEOUT_MS) (hst : statusOk status = false) :
    (makeApiRequest (some key) baseUrl endpoint params
        (.completesAt t status body)).result = .error (statusErrorMsg status) ∧
    (∀ body2, makeApiRequest (some key) baseUrl endpoint params (.completesAt t status body) =
        makeApiRequest (some key) baseUrl endpoint params (.completesAt t status body2)) ∧
    statusErrorMsg status = "API request failed with status " ++ toString status ∧
    strContains (statusErrorMsg 404) "404" = true ∧
    statusOk 404 = false := by
  have hnt : ¬REQUEST_TIMEOUT_MS ≤ t := by omega
  refine ⟨?_, ?_, rfl, by decide, by decide⟩
  · simp [makeApiRequest, hnt, hst]
  · intro body2
    simp [makeApiRequest, hnt, hst]

theorem claim_C3_status_error_witness :
    0 < REQUEST_TIMEOUT_MS ∧ statusOk 404 = false ∧
    (makeApiRequest (some "k") "b" "/e/" []
        (.completesAt 0 404 "the secret body")).result = .error (statusErrorMsg 404) :=
  ⟨by decide, by decide,
    (claim_C3_status_error "k" "b" "/e/" [] 0 404 "the secret body" (by decide) (by decide)).1⟩

/-- Claim C9: one read of `bot://currencies` yields a single JSON document
listing exactly 20 entries, one per supported code in declared order, each
with a non-empty description, and an unknown code would fall back to the
code itself as its description. -/
theorem claim_C9_currencies_resource :
    (supportedCurrenciesResource.contents =
      [{ uri := "bot://currencies", mimeType := "application/json",
         text := String.mk (printV (.arr (currencyInfoJson currencyInfo)) 0) }]) ∧
    currencyInfo.length = 20 ∧
    currencyInfo.map Prod.fst = SUPPORTED_CURRENCIES ∧
    (∀ e ∈ currencyInfo, e.2 ≠ "") ∧
    (∀ code, currencyDescriptions.lookup code = none →
      getCurrencyDescription code = code) := by
  refine ⟨rfl, by decide, by decide, by decide, ?_⟩
  intro code h
  unfold getCurrencyDescription
  rw [h]

theorem claim_C9_currencies_resource_witness :
    currencyDescriptions.lookup "THB" = none ∧ getCurrencyDescription "THB" = "THB" := by
  have h : currencyDescriptions.lookup "THB" = none := by decide
  exact ⟨h, claim_C9_currencies_resource.2.2.2.2 "THB" h⟩

/-! ## Round-trip development: whitespace and character facts -/

theorem skipWs_not_ws (c : Char) (s : List Char) (h : isWsChar c = false) :
    skipWs (c :: s) = c :: s := by
  simp [skipWs, h]

theorem skipWs_ws_append (ws s : List Char) (h : ∀ c ∈ ws, isWsChar c = true) :
    skipWs (ws ++ s) = skipWs s := by
  induction ws with
  | nil => rfl
  | cons c cs ih =>
      have hc : isWsChar c = true := h c (by simp)
      simp only [List.cons_append, skipWs, hc, if_true]
      exact ih (fun x hx => h x (by simp [hx]))

theorem skipWs_indent (d : Nat) (s : List Char) :
    skipWs (indentChars d ++ s) = skipWs s := by
  refine skipWs_ws_append _ _ ?_
  intro c hc
  simp [indentChars] at hc
  simp [hc.2, isWsChar]

theorem skipWs_nl (s : List Char) : skipWs ('\n' :: s) = skipWs s := by
  simp [skipWs, isWsChar]

theorem isDigit_ne (c x : Char) (h : c.isDigit = true) (hx : x.isDigit = false) : c ≠ x := by
  intro e
  rw [e, hx] at h
  exact Bool.noConfusion h

theorem isDigit_not_ws (c : Char) (h : c.isDigit = true) : isWsChar c = false := by
  have h1 := isDigit_ne c ' ' h (by decide)
  have h2 := isDigit_ne c '\n' h (by decide)
  have h3 := isDigit_ne c '\t' h (by decide)
  have h4 := isDigit_ne c '\r' h (by decide)
  simp [isWsChar, h1, h2, h3, h4]

/-! ## Round-trip development: numbers -/

theorem digitCh_isDigit : ∀ k, k < 10 → (digitCh k).isDigit = true := by decide

theorem digitVal_digitCh : ∀ k, k < 10 → digitVal (digitCh k) = k := by decide

theorem hexVal_hexCh : ∀ k, k < 16 → hexVal (hexCh k) = some k := by decide

theorem natChars_ne_nil (n : Nat) : natChars n ≠ [] := by
  rw [natChars]
  split
  · simp
  · simp

theorem natChars_digits (n : Nat) : ∀ c ∈ natChars n, c.isDigit = true := by
  induction n using Nat.strong_induction_on with
  | _ n ih =>
      rw [natChars]
      split
      next h =>
        intro c hc
        simp at hc
        rw [hc]
        exact digitCh_isDigit n h
      next h =>
        intro c hc
        rw [List.mem_append] at hc
        rcases hc with hc | hc
        · exact ih (n / 10) (Nat.div_lt_self (by omega) (by omega)) c hc
        · simp at hc
          rw [hc]
          exact digitCh_isDigit (n % 10) (Nat.mod_lt n (by omega))

theorem natChars_cons (n : Nat) : ∃ c cs, natChars n = c :: cs ∧ c.isDigit = true := by
  rcases h : natChars n with _ | ⟨c, cs⟩
  · exact absurd h (natChars_ne_nil n)
  · exact ⟨c, cs, rfl, natChars_digits n c (by rw [h]; simp)⟩

theorem digitsVal_append_single (ds : List Char) (c : Char) :
    digitsVal (ds ++ [c]) = 10 * digitsVal ds + digitVal c := by
  simp [digitsVal, List.foldl_append]

theorem digitsVal_natChars (n : Nat) : digitsVal (natChars n) = n := by
  induction n using Nat.strong_induction_on with
  | _ n ih =>
      rw [natChars]
      split
      next h =>
        simp [digitsVal, digitVal_digitCh n h]
      next h =>
        rw [digitsVal_append_single, ih (n / 10) (Nat.div_lt_self (by omega) (by omega)),
          digitVal_digitCh (n % 10) (Nat.mod_lt n (by omega))]
        omega

theorem takeDigits_append (ds rest : List Char) (hds : ∀ c ∈ ds, c.isDigit = true)
    (hrest : headNotDigit rest) : takeDigits (ds ++ rest) = (ds, rest) := by
  induction ds with
  | nil =>
      simp only [List.nil_append]
      cases rest with
      | nil => rfl
      | cons c cs =>
          have hc : c.isDigit = false := hrest
          simp [takeDigits, hc]
  | cons c cs ih =>
      have hc : c.isDigit = true := hds c (by simp)
      have ih2 := ih (fun x hx => hds x (by simp [hx]))
      simp [takeDigits, hc, ih2]

/-! ## Round-trip development: string literals -/

theorem parseStrBody_escList (cs rest : List Char) :
    parseStrBody (escList cs ++ ('"' :: rest)) = some (cs, rest) := by
  induction cs with
  | nil =>
      rw [escList, List.nil_append, parseStrBody.eq_def]
      simp
  | cons c cs ih =>
      rw [escList, List.append_assoc]
      by_cases h1 : c = '"'
      · subst h1
        rw [show escapeChar '"' = ['\\', '"'] from by simp [escapeChar],
          List.cons_append, List.cons_append, List.nil_append, parseStrBody.eq_def]
        simp [unescape, ih]
      · by_cases h2 : c = '\\'
        · subst h2
          rw [show escapeChar '\\' = ['\\', '\\'] from by simp [escapeChar],
            List.cons_append, List.cons_append, List.nil_append, parseStrBody.eq_def]
          simp [unescape, ih]
        · by_cases h3 : c = '\x08'
          · subst h3
            rw [show escapeChar '\x08' = ['\\', 'b'] from by simp [escapeChar],
              List.cons_append, List.cons_append, List.nil_append, parseStrBody.eq_def]
            simp [unescape, ih]
          · by_cases h4 : c = '\t'
            · subst h4
              rw [show escapeChar '\t' = ['\\', 't'] from by simp [escapeChar],
                List.cons_append, List.cons_append, List.nil_append, parseStrBody.eq_def]
              simp [unescape, ih]
            · by_cases h5 : c = '\n'
              · subst h5
                rw [show escapeChar '\n' = ['\\', 'n'] from by simp [escapeChar],
                  List.cons_append, List.cons_append, List.nil_append, parseStrBody.eq_def]
                simp [unescape, ih]
              · by_cases h6 : c = '\x0c'
                · subst h6
                  rw [show escapeChar '\x0c' = ['\\', 'f'] from by simp [escapeChar],
                    List.cons_append, List.cons_append, List.nil_append, parseStrBody.eq_def]
                  simp [unescape, ih]
                · by_cases h7 : c = '\r'
                  · subst h7
                    rw [show escapeChar '\r' = ['\\', 'r'] from by simp [escapeChar],
                      List.cons_append, List.cons_append, List.nil_append, parseStrBody.eq_def]
                    simp [unescape, ih]
                  · by_cases h8 : c.toNat < 32
                    · have e1 : escapeChar c = ['\\', 'u', '0', '0',
                          hexCh (c.toNat / 16), hexCh (c.toNat % 16)] := by
                        simp [escapeChar, h1, h2, h3, h4, h5, h6, h7, h8]
                      have hhi : hexVal (hexCh (c.toNat / 16)) = some (c.toNat / 16) :=
                        hexVal_hexCh _ (by omega)
                      have hlo : hexVal (hexCh (c.toNat % 16)) = some (c.toNat % 16) :=
                        hexVal_hexCh _ (by omega)
                      have hz : hexVal '0' = some 0 := by decide
                      rw [e1]
                      simp only [List.cons_append, List.nil_append]
                      rw [parseStrBody.eq_def]
                      simp [hz, hhi, hlo, ih, Nat.div_add_mod, Char.ofNat_toNat]
                    · have e1 : escapeChar c = [c] := by
                        simp [escapeChar, h1, h2, h3, h4, h5, h6, h7, h8]
                      rw [e1, List.cons_append, List.nil_append, parseStrBody.eq_def]
                      simp [h1, h2, ih]

/-! ## Round-trip development: shape facts -/

theorem sizeV_pos (v : Json) : 1 ≤ sizeV v := by
  cases v <;> simp [sizeV]

theorem delimOk_headNotDigit (rest : List Char) (h : delimOk rest) : headNotDigit rest := by
  cases rest with
  | nil => trivial
  | cons c cs =>
      rcases h with h | h
      · subst h
        show (',').isDigit = false
        decide
      · subst h
        show ('\n').isDigit = false
        decide

theorem printV_head (v : Json) (d : Nat) :
    ∃ c cs, printV v d = c :: cs ∧ isWsChar c = false ∧ c ≠ ']' ∧ c ≠ '}' := by
  cases v with
  | null => exact ⟨'n', ['u', 'l', 'l'], by simp [printV], by decide, by decide, by decide⟩
  | bool b =>
      cases b with
      | false =>
          exact ⟨'f', ['a', 'l', 's', 'e'], by simp [printV], by decide, by decide, by decide⟩
      | true => exact ⟨'t', ['r', 'u', 'e'], by simp [printV], by decide, by decide, by decide⟩
  | num n =>
      by_cases h : n < 0
      · exact ⟨'-', natChars n.natAbs, by simp [printV, intChars, h],
          by decide, by decide, by decide⟩
      · obtain ⟨c, cs, hc, hd⟩ := natChars_cons n.toNat
        refine ⟨c, cs, ?_, isDigit_not_ws c hd, isDigit_ne c ']' hd (by decide),
          isDigit_ne c '}' hd (by decide)⟩
        simp [printV, intChars, h, hc]
  | str s =>
      exact ⟨'"', escList s.data ++ ['"'], by simp [printV, quoteChars],
        by decide, by decide, by decide⟩
  | arr a =>
      cases a with
      | nil => exact ⟨'[', [']'], by simp [printV], by decide, by decide, by decide⟩
      | cons v tl =>
          exact ⟨'[', '\n' :: (indentChars (d + 1) ++ printItems (.cons v tl) (d + 1) ++
            '\n' :: (indentChars d ++ [']'])), by simp [printV], by decide, by decide, by decide⟩
  | obj o =>
      cases o with
      | nil => exact ⟨'{', ['}'], by simp [printV], by decide, by decide, by decide⟩
      | cons k v tl =>
          exact ⟨'{', '\n' :: (indentChars (d + 1) ++ printMembers (.cons k v tl) (d + 1) ++
            '\n' :: (indentChars d ++ ['}'])), by simp [printV], by decide, by decide, by decide⟩

theorem printItems_cons_head (v : Json) (tl : JsonArr) (d : Nat) :
    ∃ c cs, printItems (.cons v tl) d = c :: cs ∧ isWsChar c = false ∧ c ≠ ']' ∧ c ≠ '}' := by
  obtain ⟨c, cs, hc, hws, h1, h2⟩ := printV_head v d
  cases tl with
  | nil => exact ⟨c, cs, by simp [printItems, hc], hws, h1, h2⟩
  | cons w tl2 =>
      refine ⟨c, cs ++ (',' :: '\n' :: (indentChars d ++ printItems (.cons w tl2) d)),
        ?_, hws, h1, h2⟩
      rw [printItems, hc, List.cons_append]

theorem printMembers_cons_head (k : String) (v : Json) (tl : JsonObj) (d : Nat) :
    ∃ cs, printMembers (.cons k v tl) d = '"' :: cs := by
  cases tl with
  | nil =>
      refine ⟨(escList k.data ++ ['"']) ++ (':' :: ' ' :: printV v d), ?_⟩
      rw [printMembers, quoteChars]
      simp [List.append_assoc]
  | cons k2 w tl2 =>
      refine ⟨(escList k.data ++ ['"']) ++ (':' :: ' ' :: printV v d ++
        (',' :: '\n' :: (indentChars d ++ printMembers (.cons k2 w tl2) d))), ?_⟩
      rw [printMembers, quoteChars]
      simp [List.append_assoc]

/-! ## Round-trip development: the main induction on fuel -/

theorem rt_parse (fuel : Nat) :
    (∀ (v : Json) (d : Nat) (ws rest : List Char),
      (∀ c ∈ ws, isWsChar c = true) → delimOk rest → sizeV v ≤ fuel →
      parseV fuel (ws ++ (printV v d ++ rest)) = some (v, rest)) ∧
    (∀ (a : JsonArr) (d d2 : Nat) (ws rest : List Char),
      (∀ c ∈ ws, isWsChar c = true) → a ≠ .nil → sizeA a ≤ fuel →
      parseItems fuel (ws ++ (printItems a d ++ ('\n' :: (indentChars d2 ++ (']' :: rest))))) =
        some (a, rest)) ∧
    (∀ (o : JsonObj) (d d2 : Nat) (ws rest : List Char),
      (∀ c ∈ ws, isWsChar c = true) → o ≠ .nil → sizeO o ≤ fuel →
      parseMembers fuel (ws ++ (printMembers o d ++ ('\n' :: (indentChars d2 ++ ('}' :: rest))))) =
        some (o, rest)) := by
  induction fuel using Nat.strong_induction_on with
  | _ fuel ih =>
    cases fuel with
    | zero =>
        refine ⟨?_, ?_, ?_⟩
        · intro v d ws rest _ _ hsize
          exact absurd hsize (by have := sizeV_pos v; omega)
        · intro a d d2 ws rest _ hne hsize
          cases a with
          | nil => exact absurd rfl hne
          | cons v tl => exact absurd hsize (by simp [sizeA])
        · intro o d d2 ws rest _ hne hsize
          cases o with
          | nil => exact absurd rfl hne
          | cons k v tl => exact absurd hsize (by simp [sizeO])
    | succ g =>
        have ihV := (ih g (by omega)).1
        have ihI := (ih g (by omega)).2.1
        have ihM := (ih g (by omega)).2.2
        refine ⟨?_, ?_, ?_⟩
        · intro v d ws rest hws hdelim hsize
          cases v with
          | null =>
              rw [parseV.eq_def]
              rw [show printV .null d = ['n', 'u', 'l', 'l'] from by simp [printV]]
              simp only [List.cons_append, List.nil_append]
              rw [skipWs_ws_append _ _ hws, skipWs_not_ws _ _ (by decide)]
              simp
          | bool b =>
              cases b with
              | true =>
                  rw [parseV.eq_def]
                  rw [show printV (.bool true) d = ['t', 'r', 'u', 'e'] from by simp [printV]]
                  simp only [List.cons_append, List.nil_append]
                  rw [skipWs_ws_append _ _ hws, skipWs_not_ws _ _ (by decide)]
                  simp
              | false =>
                  rw [parseV.eq_def]
                  rw [show printV (.bool false) d = ['f', 'a', 'l', 's', 'e'] from by
                    simp [printV]]
                  simp only [List.cons_append, List.nil_append]
                  rw [skipWs_ws_append _ _ hws, skipWs_not_ws _ _ (by decide)]
                  simp
          | num n =>
              by_cases hn : n < 0
              · rw [parseV.eq_def]
                rw [show printV (.num n) d = '-' :: natChars n.natAbs from by
                  simp [printV, intChars, hn]]
                simp only [List.cons_append]
                rw [skipWs_ws_append _ _ hws, skipWs_not_ws _ _ (by decide)]
                obtain ⟨c0, cs0, hc0, _⟩ := natChars_cons n.natAbs
                have htd : takeDigits (natChars n.natAbs ++ rest) = (c0 :: cs0, rest) := by
                  rw [takeDigits_append _ _ (natChars_digits _)
                    (delimOk_headNotDigit rest hdelim), hc0]
                simp [htd]
                rw [← hc0, digitsVal_natChars]
                omega
              · rw [parseV.eq_def]
                rw [show printV (.num n) d = natChars n.toNat from by
                  simp [printV, intChars, hn]]
                obtain ⟨c0, cs0, hc0, hd0⟩ := natChars_cons n.toNat
                rw [hc0]
                simp only [List.cons_append]
                rw [skipWs_ws_append _ _ hws, skipWs_not_ws _ _ (isDigit_not_ws c0 hd0)]
                have htd : takeDigits (c0 :: (cs0 ++ rest)) = (c0 :: cs0, rest) := by
                  rw [show c0 :: (cs0 ++ rest) = (c0 :: cs0) ++ rest from rfl, ← hc0]
                  exact takeDigits_append _ _ (natChars_digits _)
                    (delimOk_headNotDigit rest hdelim)
                have e1 := isDigit_ne c0 'n' hd0 (by decide)
                have e2 := isDigit_ne c0 't' hd0 (by decide)
                have e3 := isDigit_ne c0 'f' hd0 (by decide)
                have e4 := isDigit_ne c0 '"' hd0 (by decide)
                have e5 := isDigit_ne c0 '[' hd0 (by decide)
                have e6 := isDigit_ne c0 '{' hd0 (by decide)
                have e7 := isDigit_ne c0 '-' hd0 (by decide)
                simp [e1, e2, e3, e4, e5, e6, e7, hd0, htd]
                rw [← hc0, digitsVal_natChars]
                omega
          | str s =>
              rw [parseV.eq_def]
              rw [show printV (.str s) d = '"' :: (escList s.data ++ ['"']) from by
                simp [printV, quoteChars]]
              simp only [List.cons_append, List.append_assoc, List.singleton_append]
              rw [skipWs_ws_append _ _ hws, skipWs_not_ws _ _ (by decide)]
              simp [parseStrBody_escList]
          | arr a =>
              cases a with
              | nil =>
                  rw [parseV.eq_def]
                  rw [show printV (.arr .nil) d = ['[', ']'] from by simp [printV]]
                  simp only [List.cons_append, List.nil_append]
                  rw [skipWs_ws_append _ _ hws, skipWs_not_ws _ _ (by decide)]
                  simp [skipWs_not_ws _ _ (by decide : isWsChar ']' = false)]
              | cons v tl =>
                  have hsz : sizeA (.cons v tl) ≤ g := by
                    simp [sizeV, sizeA] at hsize ⊢
                    omega
                  have hIH := ihI (.cons v tl) (d + 1) d [] rest
                    (by intro c hc; simp at hc) (by simp) hsz
                  simp only [List.nil_append] at hIH
                  have hE : ws ++ (printV (.arr (.cons v tl)) d ++ rest) =
                      ws ++ ('[' :: ('\n' :: (indentChars (d + 1) ++
                        (printItems (.cons v tl) (d + 1) ++
                        ('\n' :: (indentChars d ++ (']' :: rest))))))) := by
                    simp [printV]
                  rw [hE]
                  simp only [parseV]
                  rw [skipWs_ws_append _ _ hws, skipWs_not_ws _ _ (by decide)]
                  obtain ⟨c1, cs1, hpi, hnws, hne1, _⟩ := printItems_cons_head v tl (d + 1)
                  have hskip : skipWs ('\n' :: (indentChars (d + 1) ++
                      (printItems (.cons v tl) (d + 1) ++
                      ('\n' :: (indentChars d ++ (']' :: rest)))))) =
                      c1 :: (cs1 ++ ('\n' :: (indentChars d ++ (']' :: rest)))) := by
                    rw [skipWs_nl, skipWs_indent, hpi, List.cons_append,
                      skipWs_not_ws _ _ hnws]
                  have hback : c1 :: (cs1 ++ ('\n' :: (indentChars d ++ (']' :: rest)))) =
                      printItems (.cons v tl) (d + 1) ++
                        ('\n' :: (indentChars d ++ (']' :: rest))) := by
                    rw [hpi, List.cons_append]
                  simp only [hskip]
                  simp [hne1, hback, hIH]
          | obj o =>
              cases o with
              | nil =>
                  rw [parseV.eq_def]
                  rw [show printV (.obj .nil) d = ['{', '}'] from by simp [printV]]
                  simp only [List.cons_append, List.nil_append]
                  rw [skipWs_ws_append _ _ hws, skipWs_not_ws _ _ (by decide)]
                  simp [skipWs_not_ws _ _ (by decide : isWsChar '}' = false)]
              | cons k v tl =>
                  have hsz : sizeO (.cons k v tl) ≤ g := by
                    simp [sizeV, sizeO] at hsize ⊢
                    omega
                  have hIH := ihM (.cons k v tl) (d + 1) d [] rest
                    (by intro c hc; simp at hc) (by simp) hsz
                  simp only [List.nil_append] at hIH
                  have hE : ws ++ (printV (.obj (.cons k v tl)) d ++ rest) =
                      ws ++ ('{' :: ('\n' :: (indentChars (d + 1) ++
                        (printMembers (.cons k v tl) (d + 1) ++
                        ('\n' :: (indentChars d ++ ('}' :: rest))))))) := by
                    simp [printV]
                  rw [hE]
                  simp only [parseV]
                  rw [skipWs_ws_append _ _ hws, skipWs_not_ws _ _ (by decide)]
                  obtain ⟨cs1, hpm⟩ := printMembers_cons_head k v tl (d + 1)
                  have hskip : skipWs ('\n' :: (indentChars (d + 1) ++
                      (printMembers (.cons k v tl) (d + 1) ++
                      ('\n' :: (indentChars d ++ ('}' :: rest)))))) =
                      '"' :: (cs1 ++ ('\n' :: (indentChars d ++ ('}' :: rest)))) := by
                    rw [skipWs_nl, skipWs_indent, hpm, List.cons_append,
                      skipWs_not_ws _ _ (by decide)]
                  have hback : '"' :: (cs1 ++ ('\n' :: (indentChars d ++ ('}' :: rest)))) =
                      printMembers (.cons k v tl) (d + 1) ++
                        ('\n' :: (indentChars d ++ ('}' :: rest))) := by
                    rw [hpm, List.cons_append]
                  simp only [hskip]
                  simp [hback, hIH]
        · intro a d d2 ws rest hws hne hsize
          cases a with
          | nil => exact absurd rfl hne
          | cons v tl =>
              have hsV : sizeV v ≤ g := by
                simp [sizeA] at hsize
                omega
              have hV : ∀ ws2 rest2, (∀ c ∈ ws2, isWsChar c = true) → delimOk rest2 →
                  parseV g (ws2 ++ (printV v d ++ rest2)) = some (v, rest2) :=
                fun ws2 rest2 h1 h2 => ihV v d ws2 rest2 h1 h2 hsV
              cases tl with
              | nil =>
                  have hE : ws ++ (printItems (.cons v .nil) d ++
                      ('\n' :: (indentChars d2 ++ (']' :: rest)))) =
                      ws ++ (printV v d ++ ('\n' :: (indentChars d2 ++ (']' :: rest)))) := by
                    rw [printItems]
                  rw [hE]
                  simp only [parseItems]
                  rw [hV ws ('\n' :: (indentChars d2 ++ (']' :: rest))) hws (by exact Or.inr rfl)]
                  have hskip : skipWs ('\n' :: (indentChars d2 ++ (']' :: rest))) =
                      ']' :: rest := by
                    rw [skipWs_nl, skipWs_indent, skipWs_not_ws _ _ (by decide)]
                  simp [hskip]
              | cons w tl2 =>
                  have hsT : sizeA (.cons w tl2) ≤ g := by
                    simp [sizeA] at hsize ⊢
                    omega
                  have hE : ws ++ (printItems (.cons v (.cons w tl2)) d ++
                      ('\n' :: (indentChars d2 ++ (']' :: rest)))) =
                      ws ++ (printV v d ++ (',' :: '\n' :: (indentChars d ++
                        (printItems (.cons w tl2) d ++
                        ('\n' :: (indentChars d2 ++ (']' :: rest))))))) := by
                    rw [printItems]
                    simp [List.append_assoc]
                  rw [hE]
                  simp only [parseItems]
                  rw [hV ws (',' :: '\n' :: (indentChars d ++ (printItems (.cons w tl2) d ++
                    ('\n' :: (indentChars d2 ++ (']' :: rest)))))) hws (by exact Or.inl rfl)]
                  have hrec := ihI (.cons w tl2) d d2 ('\n' :: indentChars d) rest (by
                    intro c hc
                    rcases List.mem_cons.mp hc with h | h
                    · rw [h]; decide
                    · simp [indentChars] at h; simp [h.2, isWsChar]) (by simp) hsT
                  simp only [List.cons_append] at hrec
                  have hskip : skipWs (',' :: '\n' :: (indentChars d ++
                      (printItems (.cons w tl2) d ++
                      ('\n' :: (indentChars d2 ++ (']' :: rest)))))) =
                      ',' :: '\n' :: (indentChars d ++ (printItems (.cons w tl2) d ++
                      ('\n' :: (indentChars d2 ++ (']' :: rest))))) :=
                    skipWs_not_ws _ _ (by decide)
                  simp [hskip, hrec]
        · intro o d d2 ws rest hws hne hsize
          cases o with
          | nil => exact absurd rfl hne
          | cons k v tl =>
              have hsV : sizeV v ≤ g := by
                simp [sizeO] at hsize
                omega
              have hV : ∀ ws2 rest2, (∀ c ∈ ws2, isWsChar c = true) → delimOk rest2 →
                  parseV g (ws2 ++ (printV v d ++ rest2)) = some (v, rest2) :=
                fun ws2 rest2 h1 h2 => ihV v d ws2 rest2 h1 h2 hsV
              cases tl with
              | nil =>
                  have hE : ws ++ (printMembers (.cons k v .nil) d ++
                      ('\n' :: (indentChars d2 ++ ('}' :: rest)))) =
                      ws ++ ('"' :: (escList k.data ++ ('"' :: (':' :: (' ' :: (printV v d ++
                        ('\n' :: (indentChars d2 ++ ('}' :: rest))))))))) := by
                    rw [printMembers, quoteChars]
                    simp [List.append_assoc]
                  rw [hE]
                  simp only [parseMembers]
                  rw [skipWs_ws_append _ _ hws, skipWs_not_ws _ _ (by decide)]
                  have hstr := parseStrBody_escList k.data
                    (':' :: (' ' :: (printV v d ++ ('\n' :: (indentChars d2 ++ ('}' :: rest))))))
                  have hv := hV [' '] ('\n' :: (indentChars d2 ++ ('}' :: rest)))
                  simp only [List.singleton_append] at hv
                  have hv2 := hv (by decide) (by exact Or.inr rfl)
                  have hskip : skipWs ('\n' :: (indentChars d2 ++ ('}' :: rest))) =
                      '}' :: rest := by
                    rw [skipWs_nl, skipWs_indent, skipWs_not_ws _ _ (by decide)]
                  simp [hstr, skipWs_not_ws _ _ (by decide : isWsChar ':' = false), hv2, hskip]
              | cons k2 w tl2 =>
                  have hsT : sizeO (.cons k2 w tl2) ≤ g := by
                    simp [sizeO] at hsize ⊢
                    omega
                  have hE : ws ++ (printMembers (.cons k v (.cons k2 w tl2)) d ++
                      ('\n' :: (indentChars d2 ++ ('}' :: rest)))) =
                      ws ++ ('"' :: (escList k.data ++ ('"' :: (':' :: (' ' :: (printV v d ++
                        (',' :: '\n' :: (indentChars d ++
                          (printMembers (.cons k2 w tl2) d ++
                          ('\n' :: (indentChars d2 ++ ('}' :: rest)))))))))))) := by
                    rw [printMembers, quoteChars]
                    simp [List.append_assoc]
                  rw [hE]
                  simp only [parseMembers]
                  rw [skipWs_ws_append _ _ hws, skipWs_not_ws _ _ (by decide)]
                  have hstr := parseStrBody_escList k.data
                    (':' :: (' ' :: (printV v d ++ (',' :: '\n' :: (indentChars d ++
                      (printMembers (.cons k2 w tl2) d ++
                      ('\n' :: (indentChars d2 ++ ('}' :: rest)))))))))
                  have hv := hV [' '] (',' :: '\n' :: (indentChars d ++
                    (printMembers (.cons k2 w tl2) d ++
                    ('\n' :: (indentChars d2 ++ ('}' :: rest))))))
                  simp only [List.singleton_append] at hv
                  have hv2 := hv (by decide) (by exact Or.inl rfl)
                  have hrec := ihM (.cons k2 w tl2) d d2 ('\n' :: indentChars d) rest (by
                    intro c hc
                    rcases List.mem_cons.mp hc with h | h
                    · rw [h]; decide
                    · simp [indentChars] at h; simp [h.2, isWsChar]) (by simp) hsT
                  simp only [List.cons_append] at hrec
                  have hskip2 : skipWs (',' :: '\n' :: (indentChars d ++
                      (printMembers (.cons k2 w tl2) d ++
                      ('\n' :: (indentChars d2 ++ ('}' :: rest)))))) =
                      ',' :: '\n' :: (indentChars d ++ (printMembers (.cons k2 w tl2) d ++
                      ('\n' :: (indentChars d2 ++ ('}' :: rest))))) :=
                    skipWs_not_ws _ _ (by decide)
                  simp [hstr, skipWs_not_ws _ _ (by decide : isWsChar ':' = false), hv2,
                    hskip2, hrec]

/-! ## Round-trip development: the printed form is long enough as fuel -/

theorem intChars_len (n : Int) : 1 ≤ (intChars n).length := by
  unfold intChars
  split
  · simp
  · exact List.length_pos.mpr (natChars_ne_nil _)

mutual

theorem sizeV_le_len (v : Json) (d : Nat) : sizeV v ≤ (printV v d).length := by
  cases v with
  | null => simp [sizeV, printV]
  | bool b => cases b <;> simp [sizeV, printV]
  | num n =>
      have h := intChars_len n
      simp only [sizeV, printV]
      omega
  | str s => simp [sizeV, printV, quoteChars]
  | arr a =>
      cases a with
      | nil => simp [sizeV, sizeA, printV]
      | cons v tl =>
          have h := sizeA_le_len (.cons v tl) (d + 1)
          simp only [sizeV, printV, List.length_cons, List.length_append]
          omega
  | obj o =>
      cases o with
      | nil => simp [sizeV, sizeO, printV]
      | cons k v tl =>
          have h := sizeO_le_len (.cons k v tl) (d + 1)
          simp only [sizeV, printV, List.length_cons, List.length_append]
          omega

theorem sizeA_le_len (a : JsonArr) (d : Nat) : sizeA a ≤ (printItems a d).length + 1 := by
  cases a with
  | nil => simp [sizeA, printItems]
  | cons v tl =>
      cases tl with
      | nil =>
          have h := sizeV_le_len v d
          simp only [sizeA, printItems]
          omega
      | cons w tl2 =>
          have h1 := sizeV_le_len v d
          have h2 := sizeA_le_len (.cons w tl2) d
          simp only [sizeA] at h2
          simp only [sizeA, printItems, List.length_append, List.length_cons]
          omega

theorem sizeO_le_len (o : JsonObj) (d : Nat) : sizeO o ≤ (printMembers o d).length + 1 := by
  cases o with
  | nil => simp [sizeO, printMembers]
  | cons k v tl =>
      cases tl with
      | nil =>
          have h := sizeV_le_len v d
          simp only [sizeO, printMembers, List.length_append, List.length_cons]
          omega
      | cons k2 w tl2 =>
          have h1 := sizeV_le_len v d
          have h2 := sizeO_le_len (.cons k2 w tl2) d
          simp only [sizeO] at h2
          simp only [sizeO, printMembers, List.length_append, List.length_cons]
          omega

end

/-- Claim C8: the success envelope embeds the upstream JSON value
pretty-printed and unmodified, and parsing the embedded text back as JSON
recovers a value deep-equal to the upstream payload. -/
theorem claim_C8_roundtrip :
    (∀ v : Json, Json.parse (formatResponse v) = some v) ∧
    (∀ env baseUrl endpoint params up data,
      (makeApiRequest env baseUrl endpoint params up).result = .ok data →
      ∃ c, (handleTool env baseUrl endpoint params up).1.content = [c] ∧
        c.text = formatResponse data ∧ Json.parse c.text = some data) := by
  have hrt : ∀ v : Json, Json.parse (formatResponse v) = some v := by
    intro v
    unfold Json.parse formatResponse
    have hdata : (String.mk (printV v 0)).data = printV v 0 := rfl
    rw [hdata]
    have hfuel : sizeV v ≤ (printV v 0).length + 1 :=
      le_trans (sizeV_le_len v 0) (by omega)
    have h := (rt_parse ((printV v 0).length + 1)).1 v 0 [] []
      (by intro c hc; simp at hc) trivial hfuel
    simp only [List.nil_append, List.append_nil] at h
    rw [h]
    simp [skipWs]
  refine ⟨hrt, ?_⟩
  intro env baseUrl endpoint params up data h
  refine ⟨⟨"text", formatResponse data⟩, ?_, rfl, hrt data⟩
  unfold handleTool
  simp [h]

theorem claim_C8_roundtrip_witness :
    (makeApiRequest (some "k") "b" "/e/" [] (.completesAt 0 200 "null")).result =
      .ok .null ∧
    ∃ c, (handleTool (some "k") "b" "/e/" [] (.completesAt 0 200 "null")).1.content = [c] ∧
      c.text = formatResponse .null ∧ Json.parse c.text = some .null := by
  have h : (makeApiRequest (some "k") "b" "/e/" [] (.completesAt 0 200 "null")).result =
      .ok .null := by rfl
  exact ⟨h, claim_C8_roundtrip.2 (some "k") "b" "/e/" [] (.completesAt 0 200 "null") .null h⟩

end BotApi
